import Mathlib

/-!
Verification of `cargo-clean-plus` (src/main.rs) against its specification.

The single source file is shallowly embedded below.  Effectful inputs
(filesystem markers, directory timestamps, the spawned `cargo clean`
process) are represented per directory entry by an `Entry` record holding
exactly the data the code observes; all the logic of the source —
duration parsing, the output regex, unit normalization, the traversal
loop and its aggregate statistics — is translated function by function.

Modelling conventions:
* Rust `u64`/`usize` values are `Nat` with explicit reduction mod `2^64`
  where the source can overflow (release-mode wrapping semantics).
* The reclaimed-size values are Rust `f64` parsed from a decimal literal
  `\d+(\.\d+)?` and scaled by `1024` or `1024*1024`; they are modelled as
  exact rationals (`ℚ`).  Scaling by a power of two is exact in binary
  floating point, so the claims (factors, comparisons, sums) are preserved.
* The regex character classes `\d` and `\w` are modelled over their ASCII
  ranges; the regex engine's leftmost-first greedy (Perl-style) match
  semantics are implemented by an explicit backtracking matcher.
* Rust panics (`expect`, `unreachable!`, `split_at` out of range or at a
  non-character-boundary, integer underflow) are explicit result variants.
-/

/-- ASCII model of the regex class `\d`. -/
def isDigitCh (c : Char) : Bool := c.isDigit

/-- ASCII model of the regex class `\w` (alphanumeric or underscore). -/
def isWordCh (c : Char) : Bool := c.isAlphanum || c = '_'

/-- Numeric value of a digit string, most significant digit first
(the usual base-10 accumulation performed by Rust's integer parsing). -/
def natOfDigits (ds : List Char) : Nat :=
  ds.foldl (fun a c => a * 10 + (c.toNat - 48)) 0

/-- The constant `2^64`, the modulus of Rust `u64`/`usize` arithmetic. -/
def U64MOD : Nat := 2 ^ 64

/-- Rust `str::parse::<u64>()`: an optional leading `+`, then a nonempty
run of digits whose value fits in 64 bits; anything else is an error. -/
def parseU64 (s : List Char) : Option Nat :=
  let t := match s with
    | '+' :: rest => rest
    | _ => s
  if t.isEmpty then none
  else if t.all isDigitCh then
    if natOfDigits t < U64MOD then some (natOfDigits t) else none
  else none

/-- Result of `TimeParser::parse_duration` (src/main.rs lines 53-66).
`panicked` models a Rust panic (the `split_at` call), `errored` the
`Err` results produced by `value.parse()?` and `bail!`. -/
inductive PDResult
  | panicked
  | errored
  | ok (secs : Nat)
deriving DecidableEq

/-- Model of `TimeParser::parse_duration` (src/main.rs lines 53-66).

`time_str.split_at(time_str.len() - 1)` panics when the string is empty
(the index underflows) and when byte index `len - 1` is not a character
boundary, i.e. when the final character is multi-byte (codepoint ≥ 128,
hence more than one UTF-8 byte).  Otherwise the prefix is parsed as `u64`
(`?` propagates a parse failure) and the one-character suffix selects the
seconds-per-unit factor; an unrecognized suffix is `bail!`-ed.  The `u64`
multiplications wrap modulo `2^64`. -/
def parse_duration (s : List Char) : PDResult :=
  match s.getLast? with
  | none => .panicked
  | some u =>
    if 128 ≤ u.toNat then .panicked
    else
      match parseU64 s.dropLast with
      | none => .errored
      | some n =>
        if u = 'm' then .ok (n * 60 % U64MOD)
        else if u = 'h' then .ok (n * 60 * 60 % U64MOD)
        else if u = 'd' then .ok (n * 60 * 60 * 24 % U64MOD)
        else if u = 'w' then .ok (n * 60 * 60 * 24 * 7 % U64MOD)
        else .errored

/-- Consume a literal from the front of the input (a regex literal part),
returning the rest on success. -/
def stripLit : List Char → List Char → Option (List Char)
  | [], s => some s
  | _ :: _, [] => none
  | l :: ls, c :: cs => if c = l then stripLit ls cs else none

/-- Maximal run of characters satisfying `p`, with the remainder. -/
def takeRun (p : Char → Bool) : List Char → (List Char × List Char)
  | [] => ([], [])
  | c :: cs =>
    if p c then
      let r := takeRun p cs
      (c :: r.1, r.2)
    else ([], c :: cs)

/-- All ways a greedy `class+` can split the input, preferred (longest)
first: the maximal run, then each shorter nonempty prefix of it.  Empty
when no character matches (a `+` needs at least one). -/
def greedySplits (p : Char → Bool) (s : List Char) : List (List Char × List Char) :=
  let m := takeRun p s
  (List.range m.1.length).map fun i =>
    (m.1.take (m.1.length - i), m.1.drop (m.1.length - i) ++ m.2)

/-- First success of `f` over a list of alternatives, in preference order
(the backtracking order of a leftmost-first regex engine). -/
def firstSome {α β : Type} (f : α → Option β) : List α → Option β
  | [] => none
  | a :: rest =>
    match f a with
    | some b => some b
    | none => firstSome f rest

/-- Attempt to match the pattern
`Removed (?P<files>\d+) files, (?P<size>\d+(?:\.\d+)?)(?P<unit>\w+) total`
at the start of the input, with greedy leftmost-first semantics, returning
the three captured groups. -/
def matchAt (s : List Char) : Option (List Char × List Char × List Char) :=
  match stripLit "Removed ".toList s with
  | none => none
  | some s1 =>
    firstSome (fun fsp =>
      match stripLit " files, ".toList fsp.2 with
      | none => none
      | some s3 =>
        firstSome (fun isp =>
          let fracBranches : List (List Char × List Char) :=
            (match isp.2 with
              | '.' :: s5 =>
                (greedySplits isDigitCh s5).map fun fd => (isp.1 ++ '.' :: fd.1, fd.2)
              | _ => []) ++ [(isp.1, isp.2)]
          firstSome (fun szp =>
            firstSome (fun usp =>
              match stripLit " total".toList usp.2 with
              | none => none
              | some _ => some (fsp.1, szp.1, usp.1))
              (greedySplits isWordCh szp.2))
            fracBranches)
          (greedySplits isDigitCh s3))
      (greedySplits isDigitCh s1)

/-- Model of `Regex::captures` for the fixed pattern: try each start position from
the left, first match wins (leftmost-first search). -/
def captures : List Char → Option (List Char × List Char × List Char)
  | [] => none
  | c :: cs =>
    match matchAt (c :: cs) with
    | some r => some r
    | none => captures cs

/-- Does `s` start with `pat`? -/
def listStartsWith (pat s : List Char) : Bool :=
  match stripLit pat s with
  | some _ => true
  | none => false

/-- Rust `str::contains` for a literal pattern. -/
def containsSub (pat : List Char) : List Char → Bool
  | [] => listStartsWith pat []
  | c :: cs => listStartsWith pat (c :: cs) || containsSub pat cs

/-- The literal no-op marker checked at src/main.rs line 98. -/
def noOpPhrase : List Char := "Removed 0 files".toList

/-- Exact rational value of a captured decimal literal `\d+(\.\d+)?`
(`caps["size"].parse::<f64>()`, modelled exactly). -/
def decVal (v : List Char) : ℚ :=
  let ip := v.takeWhile (fun c => c ≠ '.')
  match v.dropWhile (fun c => c ≠ '.') with
  | [] => (natOfDigits ip : ℚ)
  | _ :: fd => (natOfDigits ip : ℚ) + (natOfDigits fd : ℚ) / ((10 ^ fd.length : ℕ) : ℚ)

/-- Unit normalization of `CargoProject::clean` (src/main.rs lines
107-112): `KiB` is the base unit, `MiB` multiplies by 1024, `GiB` by
1024²; any other captured unit token reaches `unreachable!("Unknown
unit")`, modelled as `none`. -/
def size_kib_of (size : ℚ) (u : List Char) : Option ℚ :=
  if u = "KiB".toList then some size
  else if u = "MiB".toList then some (size * 1024)
  else if u = "GiB".toList then some (size * 1024 * 1024)
  else none

/-- Everything the program observes about one directory entry during the
walk: the two project markers, whether `metadata()`/`modified()` succeed
and the timestamp they return (seconds, comparable with the cutoff), and
what the spawned `cargo clean` produced (whether `.output()` succeeded,
its exit status, and its captured stderr text). -/
structure Entry where
  hasCargoToml : Bool
  hasTarget : Bool
  metadataOk : Bool
  modified : Int
  spawnOk : Bool
  exitSuccess : Bool
  stderrText : List Char
deriving DecidableEq

/-- Model of `CargoProject::is_valid_project` (src/main.rs lines 83-85): both the
`Cargo.toml` marker file and the `target` directory must exist. -/
def is_valid_project (e : Entry) : Bool :=
  e.hasCargoToml && e.hasTarget

/-- Outcome of `CargoProject::clean` (src/main.rs lines 87-115).
`errored` is `Err(_)` (spawn failure, or `caps["files"].parse::<usize>()?`
overflowing), `skipped` is `Ok(None)` (non-zero exit, or the no-op
phrase), `panicked` is a panic (`.expect` on a failed regex match, or the
`unreachable!` unit arm). -/
inductive CleanOutcome
  | errored
  | skipped
  | cleaned (files : Nat) (size_kib : ℚ)
  | panicked
deriving DecidableEq

/-- Model of `CargoProject::clean` (src/main.rs lines 87-115), as a function of the
observed process result. -/
def cleanOutcome (e : Entry) : CleanOutcome :=
  if !e.spawnOk then .errored
  else if !e.exitSuccess then .skipped
  else if containsSub noOpPhrase e.stderrText then .skipped
  else
    match captures e.stderrText with
    | none => .panicked
    | some (f, v, u) =>
      match parseU64 f with
      | none => .errored
      | some files =>
        match size_kib_of (decVal v) u with
        | none => .panicked
        | some sz => .cleaned files sz

/-- Model of `CleanupStats` (src/main.rs lines 24-37). -/
structure CleanupStats where
  projects : Nat
  files : Nat
  size_kib : ℚ
deriving DecidableEq

/-- Model of `CleanupStats::new` (src/main.rs lines 31-37). -/
def CleanupStats.new : CleanupStats := ⟨0, 0, 0⟩

/-- The unit label chosen for a per-candidate report line (src/main.rs
line 153): thresholds compare the *already KiB-normalized* value with
`>=` and pick the label without dividing the value. -/
def reportUnitLabel (size : ℚ) : List Char :=
  if 1024 * 1024 ≤ size then "GiB".toList
  else if 1024 ≤ size then "MiB".toList
  else "KiB".toList

/-- The number of base-unit kibibytes denoted by one unit of a size
label (used to state what a printed `number ++ label` pair denotes). -/
def unitFactorOf (u : List Char) : ℚ :=
  if u = "KiB".toList then 1
  else if u = "MiB".toList then 1024
  else if u = "GiB".toList then 1024 * 1024
  else 0

/-- One `pb.println` report line (src/main.rs lines 148-155): the file
count, the numeric size printed (the KiB-normalized value, printed as-is)
and the chosen unit label. -/
structure ReportLine where
  files : Nat
  size : ℚ
  label : List Char
deriving DecidableEq

/-- Result of `process_directory`'s loop: a completed run with final
stats and the report lines emitted, an `Err` propagated by `?` (the
`entry.metadata()?.modified()?` calls), or a panic escaping
`CargoProject::clean`. -/
inductive RunResult
  | done (stats : CleanupStats) (lines : List ReportLine)
  | ioError
  | panicked
deriving DecidableEq

/-- The per-entry loop of `process_directory` (src/main.rs lines
128-157): skip invalid projects; propagate (`?`) a failed timestamp
fetch; skip entries modified strictly after the cutoff; run
`CargoProject::clean` and fold an `Ok(Some(files, size))` result into the
stats, printing a report line; `Err` and `Ok(None)` results fall through
the `if let` silently; a panic aborts the run. -/
def runLoop (before : Int) : List Entry → CleanupStats → RunResult
  | [], stats => .done stats []
  | e :: rest, stats =>
    if !is_valid_project e then runLoop before rest stats
    else if !e.metadataOk then .ioError
    else if before < e.modified then runLoop before rest stats
    else
      match cleanOutcome e with
      | .cleaned files size =>
        match runLoop before rest ⟨stats.projects + 1, stats.files + files, stats.size_kib + size⟩ with
        | .done s L => .done s (⟨files, size, reportUnitLabel size⟩ :: L)
        | r => r
      | .panicked => .panicked
      | _ => runLoop before rest stats

/-- Model of `process_directory` (src/main.rs lines 124-168): the walk yields raw
entries, unreadable ones (`Err`) are dropped by `filter_map(|e| e.ok())`
(line 128), and the loop runs over the rest starting from fresh stats. -/
def processDirectory (before : Int) (walk : List (Option Entry)) : RunResult :=
  runLoop before (walk.filterMap id) CleanupStats.new

/-- The classification of one candidate implied by the guard structure of
the loop (spec §4.2): not a project, timestamp fetch failure, too recent,
or eligible for cleaning. -/
inductive Classification
  | notAProject
  | metadataFail
  | tooRecent
  | eligible
deriving DecidableEq

/-- The candidate classification performed by src/main.rs lines 132-141,
read off the loop's guards in order. -/
def classify (before : Int) (e : Entry) : Classification :=
  if !is_valid_project e then .notAProject
  else if !e.metadataOk then .metadataFail
  else if before < e.modified then .tooRecent
  else .eligible

/-- Model of `CleanupStats::format_size` (src/main.rs lines 39-47), as the pair
(value printed, unit label): the final summary *does* divide, and uses
strict `>` thresholds. -/
def format_size (s : CleanupStats) : ℚ × List Char :=
  if 1024 * 1024 < s.size_kib then (s.size_kib / 1024 / 1024, "GiB".toList)
  else if 1024 < s.size_kib then (s.size_kib / 1024, "MiB".toList)
  else (s.size_kib, "KiB".toList)

/-- The files/size pair an entry contributes to the aggregate: present
exactly when the entry passes the loop's guards (valid project, timestamp
fetched, not newer than the cutoff) and `CargoProject::clean` returns
`Ok(Some(files, size))`. -/
def cleanedData (before : Int) (e : Entry) : Option (Nat × ℚ) :=
  if is_valid_project e && e.metadataOk && decide (e.modified ≤ before) then
    match cleanOutcome e with
    | .cleaned f sz => some (f, sz)
    | _ => none
  else none

/-- A concrete eligible project entry whose cleanup reports
`Removed 12 files, 3.50MiB total` (the spec's worked scenario). -/
def entryA : Entry :=
  ⟨true, true, true, 0, true, true, "Removed 12 files, 3.50MiB total".toList⟩

/-- A concrete non-project entry (its build-output `target` directory is
missing). -/
def entryB : Entry := ⟨true, false, true, 0, true, true, []⟩

/-! ## Helper lemmas -/

lemma getLast?_app (v : List Char) (c : Char) : (v ++ [c]).getLast? = some c := by
  rw [List.getLast?_concat]

lemma dropLast_app (v : List Char) (c : Char) : (v ++ [c]).dropLast = v := by
  rw [List.dropLast_concat]

/-- Evaluation of `parse_duration` on a string with a final ASCII character, reduced to
the value parse and the unit dispatch. -/
lemma parse_duration_app (v : List Char) (c : Char) (hc : c.toNat < 128) :
    parse_duration (v ++ [c]) =
      match parseU64 v with
      | none => .errored
      | some n =>
        if c = 'm' then .ok (n * 60 % U64MOD)
        else if c = 'h' then .ok (n * 60 * 60 % U64MOD)
        else if c = 'd' then .ok (n * 60 * 60 * 24 % U64MOD)
        else if c = 'w' then .ok (n * 60 * 60 * 24 * 7 % U64MOD)
        else .errored := by
  have hnot : ¬ 128 ≤ c.toNat := by omega
  simp only [parse_duration, getLast?_app, dropLast_app, if_neg hnot]

lemma decVal_nonneg (v : List Char) : 0 ≤ decVal v := by
  simp only [decVal]
  split
  · positivity
  · positivity

lemma size_kib_of_nonneg (x : ℚ) (u : List Char) (sz : ℚ) (hx : 0 ≤ x)
    (h : size_kib_of x u = some sz) : 0 ≤ sz := by
  unfold size_kib_of at h
  split_ifs at h <;> injection h with h' <;> subst h'
  · exact hx
  · positivity
  · positivity

lemma cleanOutcome_cleaned_nonneg (e : Entry) (f : Nat) (sz : ℚ)
    (h : cleanOutcome e = .cleaned f sz) : 0 ≤ sz := by
  unfold cleanOutcome at h
  by_cases h1 : (!e.spawnOk) = true
  · rw [if_pos h1] at h; exact absurd h (by simp)
  rw [if_neg h1] at h
  by_cases h2 : (!e.exitSuccess) = true
  · rw [if_pos h2] at h; exact absurd h (by simp)
  rw [if_neg h2] at h
  by_cases h3 : containsSub noOpPhrase e.stderrText = true
  · rw [if_pos h3] at h; exact absurd h (by simp)
  rw [if_neg h3] at h
  rcases hc : captures e.stderrText with _ | ⟨fs, v, u⟩
  · rw [hc] at h; exact absurd h (by simp)
  · rw [hc] at h
    dsimp only at h
    rcases hp : parseU64 fs with _ | files
    · rw [hp] at h; exact absurd h (by simp)
    · rw [hp] at h
      dsimp only at h
      rcases hs : size_kib_of (decVal v) u with _ | sz'
      · rw [hs] at h; exact absurd h (by simp)
      · rw [hs] at h
        dsimp only at h
        injection h with hf hsz
        exact hsz ▸ size_kib_of_nonneg (decVal v) u sz' (decVal_nonneg v) hs

lemma cleanedData_nonneg (before : Int) (e : Entry) (f : Nat) (sz : ℚ)
    (h : cleanedData before e = some (f, sz)) : 0 ≤ sz := by
  unfold cleanedData at h
  split_ifs at h
  · rcases hc : cleanOutcome e with _ | _ | ⟨f', sz'⟩ | _ <;> rw [hc] at h <;> dsimp only at h
    · exact absurd h (by simp)
    · exact absurd h (by simp)
    · injection h with h'
      injection h' with h1 h2
      subst h2
      exact cleanOutcome_cleaned_nonneg e f' _ hc
    · exact absurd h (by simp)

/-- Behavior of `CargoProject::clean` past the guards and a successful pattern match:
the outcome is determined by the unit normalization. -/
lemma cleanOutcome_of_captures (e : Entry) (f v u : List Char) (n : Nat)
    (hs : e.spawnOk = true) (hx : e.exitSuccess = true)
    (hn : containsSub noOpPhrase e.stderrText = false)
    (hc : captures e.stderrText = some (f, v, u))
    (hf : parseU64 f = some n) :
    cleanOutcome e =
      match size_kib_of (decVal v) u with
      | none => .panicked
      | some sz => .cleaned n sz := by
  simp [cleanOutcome, hs, hx, hn, hc, hf]

lemma cleanedList_sum_nonneg (before : Int) (es : List Entry) :
    0 ≤ ((es.filterMap (cleanedData before)).map Prod.snd).sum := by
  apply List.sum_nonneg
  intro x hx
  simp only [List.mem_map, List.mem_filterMap] at hx
  obtain ⟨⟨f, sz⟩, ⟨e, _, hd⟩, rfl⟩ := hx
  exact cleanedData_nonneg before e f sz hd

/-- A completed loop run adds exactly the cleaned entries' contributions
to the initial statistics. -/
lemma runLoop_done_stats (before : Int) (es : List Entry) :
    ∀ (stats s : CleanupStats) (L : List ReportLine),
      runLoop before es stats = .done s L →
      s.projects = stats.projects + (es.filterMap (cleanedData before)).length ∧
      s.files = stats.files + ((es.filterMap (cleanedData before)).map Prod.fst).sum ∧
      s.size_kib = stats.size_kib + ((es.filterMap (cleanedData before)).map Prod.snd).sum := by
  induction es with
  | nil =>
    intro stats s L h
    simp only [runLoop] at h
    injection h with h1 h2
    subst h1
    simp
  | cons e rest ih =>
    intro stats s L h
    simp only [runLoop] at h
    by_cases hv : (!is_valid_project e) = true
    · rw [if_pos hv] at h
      have hvf : is_valid_project e = false := by revert hv; cases is_valid_project e <;> simp
      have hd : cleanedData before e = none := by simp [cleanedData, hvf]
      obtain ⟨h1, h2, h3⟩ := ih stats s L h
      simp [List.filterMap_cons, hd, h1, h2, h3]
    · rw [if_neg hv] at h
      by_cases hm : (!e.metadataOk) = true
      · rw [if_pos hm] at h; exact absurd h (by simp)
      rw [if_neg hm] at h
      by_cases ht : before < e.modified
      · rw [if_pos ht] at h
        have hle : ¬ e.modified ≤ before := not_le.mpr ht
        have hd : cleanedData before e = none := by simp [cleanedData, hle]
        obtain ⟨h1, h2, h3⟩ := ih stats s L h
        simp [List.filterMap_cons, hd, h1, h2, h3]
      · rw [if_neg ht] at h
        have hvt : is_valid_project e = true := by revert hv; cases is_valid_project e <;> simp
        have hmt : e.metadataOk = true := by revert hm; cases e.metadataOk <;> simp
        have hle : e.modified ≤ before := not_lt.mp ht
        rcases hc : cleanOutcome e with _ | _ | ⟨f, sz⟩ | _ <;> rw [hc] at h <;> dsimp only at h
        · have hd : cleanedData before e = none := by simp [cleanedData, hvt, hmt, hle, hc]
          obtain ⟨h1, h2, h3⟩ := ih stats s L h
          simp [List.filterMap_cons, hd, h1, h2, h3]
        · have hd : cleanedData before e = none := by simp [cleanedData, hvt, hmt, hle, hc]
          obtain ⟨h1, h2, h3⟩ := ih stats s L h
          simp [List.filterMap_cons, hd, h1, h2, h3]
        · rcases hr : runLoop before rest ⟨stats.projects + 1, stats.files + f, stats.size_kib + sz⟩
            with ⟨s', L'⟩ | _ | _ <;> rw [hr] at h <;> dsimp only at h
          · injection h with h1 h2
            subst h1
            have hd : cleanedData before e = some (f, sz) := by
              simp [cleanedData, hvt, hmt, hle, hc]
            obtain ⟨g1, g2, g3⟩ := ih _ _ _ hr
            refine ⟨?_, ?_, ?_⟩
            · rw [g1]; simp [List.filterMap_cons, hd]; omega
            · rw [g2]; simp [List.filterMap_cons, hd]; omega
            · rw [g3]; simp [List.filterMap_cons, hd]; ring
          · exact absurd h (by simp)
          · exact absurd h (by simp)
        · exact absurd h (by simp)

/-! ## Claim theorems -/

/-- C2 (counterexample): the claim fails as stated.  The prefix
`18446744073709551615` (= 2^64 - 1) is a valid non-negative integer and
`m` is a recognized suffix, but the code's `u64` multiplication wraps, so
the parsed duration is `2^64 - 60` seconds rather than n × 60.  Moreover
the suffix `é` is "any other character", yet the code panics in
`split_at` instead of returning an error. -/
theorem parse_duration_wrap_counterexample :
    parse_duration "18446744073709551615m".toList = .ok 18446744073709551556 ∧
    (18446744073709551556 : Nat) ≠ 18446744073709551615 * 60 ∧
    parse_duration "5é".toList = .panicked := by
  refine ⟨by decide, by decide, by decide⟩

/-- C2 (amended): for every valid expression `<n><u>` whose prefix parses
as `u64` and whose suffix `u ∈ {m,h,d,w}`, `parse_duration` returns
n × {60, 3600, 86400, 604800} seconds reduced modulo 2^64 — equal to the
exact product whenever it fits in a `u64`; for every other single-byte
(ASCII) suffix the result is an error, and a prefix that fails `u64`
parsing is an error for any ASCII suffix. -/
theorem parse_duration_amended :
    (∀ (v : List Char) (n : Nat), parseU64 v = some n →
      parse_duration (v ++ ['m']) = .ok (n * 60 % U64MOD) ∧
      parse_duration (v ++ ['h']) = .ok (n * 60 * 60 % U64MOD) ∧
      parse_duration (v ++ ['d']) = .ok (n * 60 * 60 * 24 % U64MOD) ∧
      parse_duration (v ++ ['w']) = .ok (n * 60 * 60 * 24 * 7 % U64MOD) ∧
      (n * 604800 < U64MOD →
        parse_duration (v ++ ['m']) = .ok (n * 60) ∧
        parse_duration (v ++ ['h']) = .ok (n * 3600) ∧
        parse_duration (v ++ ['d']) = .ok (n * 86400) ∧
        parse_duration (v ++ ['w']) = .ok (n * 604800))) ∧
    (∀ (v : List Char) (n : Nat) (c : Char), parseU64 v = some n → c.toNat < 128 →
      c ≠ 'm' → c ≠ 'h' → c ≠ 'd' → c ≠ 'w' →
      parse_duration (v ++ [c]) = .errored) ∧
    (∀ (v : List Char) (c : Char), parseU64 v = none → c.toNat < 128 →
      parse_duration (v ++ [c]) = .errored) := by
  have hU : U64MOD = 18446744073709551616 := by norm_num [U64MOD]
  refine ⟨?_, ?_, ?_⟩
  · intro v n hv
    have hm := parse_duration_app v 'm' (by decide)
    have hh := parse_duration_app v 'h' (by decide)
    have hd := parse_duration_app v 'd' (by decide)
    have hw := parse_duration_app v 'w' (by decide)
    rw [hv] at hm hh hd hw
    simp only [if_pos rfl, if_neg (by decide : ¬ ('h' : Char) = 'm'),
      if_neg (by decide : ¬ ('d' : Char) = 'm'), if_neg (by decide : ¬ ('d' : Char) = 'h'),
      if_neg (by decide : ¬ ('w' : Char) = 'm'), if_neg (by decide : ¬ ('w' : Char) = 'h'),
      if_neg (by decide : ¬ ('w' : Char) = 'd')] at hm hh hd hw
    refine ⟨hm, hh, hd, hw, fun hfit => ?_⟩
    have e1 : n * 60 * 60 = n * 3600 := by ring
    have e2 : n * 60 * 60 * 24 = n * 86400 := by ring
    have e3 : n * 60 * 60 * 24 * 7 = n * 604800 := by ring
    have l1 : n * 60 < U64MOD := by omega
    have l2 : n * 3600 < U64MOD := by omega
    have l3 : n * 86400 < U64MOD := by omega
    have l4 : n * 604800 < U64MOD := hfit
    rw [e1] at hh
    rw [e2] at hd
    rw [e3] at hw
    rw [Nat.mod_eq_of_lt l1] at hm
    rw [Nat.mod_eq_of_lt l2] at hh
    rw [Nat.mod_eq_of_lt l3] at hd
    rw [Nat.mod_eq_of_lt l4] at hw
    exact ⟨hm, hh, hd, hw⟩
  · intro v n c hv hc h1 h2 h3 h4
    rw [parse_duration_app v c hc, hv]
    simp only [if_neg h1, if_neg h2, if_neg h3, if_neg h4]
  · intro v c hv hc
    rw [parse_duration_app v c hc, hv]

/-- Witness for C2 (amended) at concrete inputs: `5m` parses to 300
seconds, an unknown ASCII suffix `5x` errors, and a non-numeric prefix
`abcm` errors. -/
theorem parse_duration_amended_witness :
    parse_duration ("5".toList ++ ['m']) = .ok 300 ∧
    parse_duration ("5".toList ++ ['x']) = .errored ∧
    parse_duration ("abc".toList ++ ['m']) = .errored := by
  refine ⟨?_, ?_, ?_⟩
  · have h := ((parse_duration_amended.1 "5".toList 5 (by decide)).2.2.2.2 (by norm_num [U64MOD])).1
    rwa [show (5 * 60 : Nat) = 300 from rfl] at h
  · exact parse_duration_amended.2.1 "5".toList 5 'x' (by decide) (by decide)
      (by decide) (by decide) (by decide) (by decide)
  · exact parse_duration_amended.2.2 "abc".toList 'm' (by decide) (by decide)

/-- C10: `parse_duration` panics — rather than returning an error — on
the empty string (the byte index `len - 1` underflows) and on every
string whose final byte is not a UTF-8 character boundary, i.e. whose
last character is multi-byte (`split_at` panics at a non-boundary
index). -/
theorem parse_duration_boundary_panics :
    parse_duration [] = .panicked ∧
    ∀ (v : List Char) (c : Char), 128 ≤ c.toNat →
      parse_duration (v ++ [c]) = .panicked := by
  refine ⟨rfl, fun v c hc => ?_⟩
  simp only [parse_duration, getLast?_app, if_pos hc]

/-- Witness for C10: the empty string and `5é` (whose final character
`é` occupies two UTF-8 bytes) both panic. -/
theorem parse_duration_boundary_panics_witness :
    parse_duration [] = .panicked ∧
    parse_duration ("5".toList ++ ['é']) = .panicked :=
  ⟨parse_duration_boundary_panics.1,
   parse_duration_boundary_panics.2 "5".toList 'é' (by decide)⟩

/-- C5: for a directory with both markers whose timestamp was fetched, a
modification time strictly after the cutoff classifies it `TooRecent` and
the loop skips it without invoking the cleanup command (the loop state is
exactly as if the entry were absent); a modification time exactly equal
to the cutoff classifies it `Eligible` (not-after means eligible). -/
theorem recency_classification :
    ∀ (before : Int) (e : Entry),
      e.hasCargoToml = true → e.hasTarget = true → e.metadataOk = true →
      ((before < e.modified →
          classify before e = .tooRecent ∧
          ∀ (rest : List Entry) (stats : CleanupStats),
            runLoop before (e :: rest) stats = runLoop before rest stats) ∧
       (e.modified = before → classify before e = .eligible)) := by
  intro before e h1 h2 h3
  have hv : is_valid_project e = true := by simp [is_valid_project, h1, h2]
  constructor
  · intro hlt
    refine ⟨?_, fun rest stats => ?_⟩
    · simp [classify, hv, h3, hlt]
    · simp [runLoop, hv, h3, hlt]
  · intro heq
    have hnot : ¬ before < e.modified := by rw [heq]; exact lt_irrefl before
    simp [classify, hv, h3, hnot]

/-- Witness for C5: a project modified at time 3 against cutoff 2 is too
recent and skipped; against cutoff 3 (equality) it is eligible. -/
theorem recency_classification_witness :
    (classify 2 ⟨true, true, true, 3, true, true, []⟩ = .tooRecent ∧
     runLoop 2 [⟨true, true, true, 3, true, true, []⟩] CleanupStats.new =
       runLoop 2 [] CleanupStats.new) ∧
    classify 3 ⟨true, true, true, 3, true, true, []⟩ = .eligible := by
  refine ⟨?_, ?_⟩
  · have h := (recency_classification 2 ⟨true, true, true, 3, true, true, []⟩ rfl rfl rfl).1
      (by decide)
    exact ⟨h.1, h.2 [] CleanupStats.new⟩
  · exact (recency_classification 3 ⟨true, true, true, 3, true, true, []⟩ rfl rfl rfl).2 rfl

/-- C3: when the cleanup command is invoked (valid project, timestamp
fetched, not too recent), exits successfully, and its captured text
neither contains the no-op phrase nor matches the extraction pattern,
`CargoProject::clean` panics (`.expect`) and the whole run aborts with
that panic — regardless of the remaining entries — instead of silently
contributing nothing and continuing the traversal. -/
theorem format_mismatch_aborts :
    ∀ (before : Int) (e : Entry) (rest : List Entry) (stats : CleanupStats),
      is_valid_project e = true → e.metadataOk = true → e.modified ≤ before →
      e.spawnOk = true → e.exitSuccess = true →
      containsSub noOpPhrase e.stderrText = false →
      captures e.stderrText = none →
      cleanOutcome e = .panicked ∧
      runLoop before (e :: rest) stats = .panicked := by
  intro before e rest stats hv hm hle hs hx hn hc
  have hclean : cleanOutcome e = .panicked := by
    simp [cleanOutcome, hs, hx, hn, hc]
  have hnot : ¬ before < e.modified := not_lt.mpr hle
  exact ⟨hclean, by simp [runLoop, hv, hm, hnot, hclean]⟩

/-- Witness for C3: a successful exit whose captured text is `garbage`
(no no-op phrase, no pattern match) panics and aborts the run. -/
theorem format_mismatch_aborts_witness :
    cleanOutcome ⟨true, true, true, 0, true, true, "garbage".toList⟩ = .panicked ∧
    runLoop 0 [⟨true, true, true, 0, true, true, "garbage".toList⟩] CleanupStats.new =
      .panicked :=
  format_mismatch_aborts 0 ⟨true, true, true, 0, true, true, "garbage".toList⟩ []
    CleanupStats.new rfl rfl (by decide) rfl rfl (by decide) (by decide)

/-- C7: when the captured text contains the literal phrase
`Removed 0 files`, `CargoProject::clean` returns `Ok(None)` and the loop
leaves the accumulator untouched and emits no report line (the loop state
is exactly as if the entry were absent). -/
theorem noop_output_no_effect :
    ∀ (before : Int) (e : Entry) (rest : List Entry) (stats : CleanupStats),
      is_valid_project e = true → e.metadataOk = true → e.modified ≤ before →
      e.spawnOk = true → e.exitSuccess = true →
      containsSub noOpPhrase e.stderrText = true →
      cleanOutcome e = .skipped ∧
      runLoop before (e :: rest) stats = runLoop before rest stats := by
  intro before e rest stats hv hm hle hs hx hn
  have hclean : cleanOutcome e = .skipped := by
    simp [cleanOutcome, hs, hx, hn]
  have hnot : ¬ before < e.modified := not_lt.mpr hle
  exact ⟨hclean, by simp [runLoop, hv, hm, hnot, hclean]⟩

/-- Witness for C7: the output `Removed 0 files, 0.00KiB total` is a
no-op: the run over just this entry finishes with zero stats and no
report lines. -/
theorem noop_output_no_effect_witness :
    cleanOutcome ⟨true, true, true, 0, true, true,
        "Removed 0 files, 0.00KiB total".toList⟩ = .skipped ∧
    runLoop 0 [⟨true, true, true, 0, true, true,
        "Removed 0 files, 0.00KiB total".toList⟩] CleanupStats.new =
      runLoop 0 [] CleanupStats.new :=
  noop_output_no_effect 0
    ⟨true, true, true, 0, true, true, "Removed 0 files, 0.00KiB total".toList⟩ []
    CleanupStats.new rfl rfl (by decide) rfl rfl (by decide)

/-- C6 (code bug, evaluated at the failing input): a directory with both
markers whose timestamp fetch fails makes the whole run abort with the
propagated error (`entry.metadata()?.modified()?`), contrary to the
fail-open behavior the specification describes; entries the walk itself
could not read are indeed dropped by `filter_map(|e| e.ok())` and the run
continues. -/
theorem metadata_error_aborts :
    runLoop 0 [⟨true, true, false, 0, true, true, []⟩] CleanupStats.new = .ioError ∧
    processDirectory 0 [none] = .done CleanupStats.new [] ∧
    processDirectory 0 [none, some ⟨true, true, false, 0, true, true, []⟩] = .ioError := by
  refine ⟨by decide, by decide, by decide⟩

/-- C1: for every captured text matching the extraction pattern (reaching
the pattern, i.e. past the no-op check, with a file count that fits in
`usize`), `CargoProject::clean` returns the parsed decimal size
normalized into kibibytes: unchanged for `KiB`, × 1024 for `MiB`,
× 1024² for `GiB`.  Parsing is a pure function of the captured text, so
re-parsing the same text yields the same result (idempotence is
definitional). -/
theorem clean_output_normalization :
    ∀ (e : Entry) (f v u : List Char) (n : Nat),
      e.spawnOk = true → e.exitSuccess = true →
      containsSub noOpPhrase e.stderrText = false →
      captures e.stderrText = some (f, v, u) →
      parseU64 f = some n →
      ((u = "KiB".toList → cleanOutcome e = .cleaned n (decVal v)) ∧
       (u = "MiB".toList → cleanOutcome e = .cleaned n (decVal v * 1024)) ∧
       (u = "GiB".toList → cleanOutcome e = .cleaned n (decVal v * 1024 * 1024)) ∧
       cleanOutcome e = cleanOutcome e) := by
  intro e f v u n hs hx hn hc hf
  have base : ∀ sz, size_kib_of (decVal v) u = some sz → cleanOutcome e = .cleaned n sz := by
    intro sz hsz
    rw [cleanOutcome_of_captures e f v u n hs hx hn hc hf, hsz]
  refine ⟨?_, ?_, ?_, rfl⟩ <;> intro hu <;> subst hu <;> apply base <;> unfold size_kib_of
  · rw [if_pos rfl]
  · rw [if_neg (by decide), if_pos rfl]
  · rw [if_neg (by decide), if_neg (by decide), if_pos rfl]

/-- Witness for C1: `Removed 12 files, 3.50MiB total` parses to 12 files
and 3.50 × 1024 = 3584 KiB. -/
theorem clean_output_normalization_witness :
    cleanOutcome ⟨true, true, true, 0, true, true,
        "Removed 12 files, 3.50MiB total".toList⟩ =
      .cleaned 12 (decVal "3.50".toList * 1024) ∧
    decVal "3.50".toList * 1024 = 3584 := by
  refine ⟨?_, ?_⟩
  case refine_2 =>
    have h : decVal "3.50".toList = ((3 : ℕ) : ℚ) + ((50 : ℕ) : ℚ) / ((100 : ℕ) : ℚ) := rfl
    rw [h]
    norm_num
  exact (clean_output_normalization
      ⟨true, true, true, 0, true, true, "Removed 12 files, 3.50MiB total".toList⟩
      "12".toList "3.50".toList "MiB".toList 12
      rfl rfl (by decide) (by decide) (by decide)).2.1 rfl

/-- C8 (counterexample): the claim fails as stated — the extraction
pattern's unit group is `\w+`, not restricted to the three size units:
`Removed 5 files, 3.00TiB total` matches with captured unit `TiB`, which
is none of `KiB`/`MiB`/`GiB`, and the normalization then reaches the
`unreachable!("Unknown unit")` arm (a panic). -/
theorem unit_token_counterexample :
    captures "Removed 5 files, 3.00TiB total".toList =
      some ("5".toList, "3.00".toList, "TiB".toList) ∧
    "TiB".toList ≠ "KiB".toList ∧ "TiB".toList ≠ "MiB".toList ∧
    "TiB".toList ≠ "GiB".toList ∧
    cleanOutcome ⟨true, true, true, 0, true, true,
        "Removed 5 files, 3.00TiB total".toList⟩ = .panicked := by
  refine ⟨by decide, by decide, by decide, by decide, by decide⟩

/-- C8 (amended): the extraction pattern captures any word token as the
unit; when the captured unit is one of the three recognized size units
the normalization succeeds (the `unreachable!` arm is not reached), but
for any successfully captured unit outside these three, the
unit-normalization match reaches the `unreachable!` arm and panics. -/
theorem unit_token_amended :
    ∀ (e : Entry) (f v u : List Char) (n : Nat),
      e.spawnOk = true → e.exitSuccess = true →
      containsSub noOpPhrase e.stderrText = false →
      captures e.stderrText = some (f, v, u) →
      parseU64 f = some n →
      ((u ≠ "KiB".toList → u ≠ "MiB".toList → u ≠ "GiB".toList →
          cleanOutcome e = .panicked) ∧
       ((u = "KiB".toList ∨ u = "MiB".toList ∨ u = "GiB".toList) →
          cleanOutcome e ≠ .panicked)) := by
  intro e f v u n hs hx hn hc hf
  have base := cleanOutcome_of_captures e f v u n hs hx hn hc hf
  constructor
  · intro h1 h2 h3
    have hsz : size_kib_of (decVal v) u = none := by
      unfold size_kib_of
      rw [if_neg h1, if_neg h2, if_neg h3]
    rw [base, hsz]
  · intro hu
    have hsome : ∃ sz, size_kib_of (decVal v) u = some sz := by
      unfold size_kib_of
      rcases hu with h | h | h <;> subst h
      · exact ⟨_, by rw [if_pos rfl]⟩
      · exact ⟨_, by rw [if_neg (by decide), if_pos rfl]⟩
      · exact ⟨_, by rw [if_neg (by decide), if_neg (by decide), if_pos rfl]⟩
    obtain ⟨sz, hsz⟩ := hsome
    rw [base, hsz]
    simp

lemma decVal_350 : decVal "3.50".toList = 7 / 2 := by
  have h : decVal "3.50".toList = ((3 : ℕ) : ℚ) + ((50 : ℕ) : ℚ) / ((100 : ℕ) : ℚ) := rfl
  rw [h]
  norm_num

lemma cleanOutcome_entryA :
    cleanOutcome entryA = .cleaned 12 (decVal "3.50".toList * 1024) := by
  have h := cleanOutcome_of_captures entryA "12".toList "3.50".toList "MiB".toList 12
    rfl rfl (by decide) (by decide) (by decide)
  rw [h]
  have hsz : size_kib_of (decVal "3.50".toList) "MiB".toList =
      some (decVal "3.50".toList * 1024) := by
    unfold size_kib_of
    rw [if_neg (by decide), if_pos rfl]
  rw [hsz]

lemma runLoop_entryAB :
    runLoop 0 [entryA, entryB] CleanupStats.new =
      .done ⟨0 + 1, 0 + 12, 0 + decVal "3.50".toList * 1024⟩
        [⟨12, decVal "3.50".toList * 1024,
          reportUnitLabel (decVal "3.50".toList * 1024)⟩] := by
  simp only [runLoop]
  rw [cleanOutcome_entryA]
  norm_num [entryA, entryB, is_valid_project, CleanupStats.new]

/-- C9: every per-candidate cleaned report line prints the
already-KiB-normalized number `sz` unchanged, while its unit label is
chosen by comparing that same KiB value against the `>=` thresholds
1024² (GiB) and 1024 (MiB) without dividing; hence for every cleaned
result of at least 1024 KiB the printed number and its label disagree
(the quantity the pair denotes differs from the actual size). -/
theorem report_label_mismatch :
    ∀ (before : Int) (e : Entry) (rest : List Entry) (stats : CleanupStats)
      (f : Nat) (sz : ℚ) (s : CleanupStats) (L : List ReportLine),
      is_valid_project e = true → e.metadataOk = true → e.modified ≤ before →
      cleanOutcome e = .cleaned f sz →
      runLoop before (e :: rest) stats = .done s L →
      ((∃ M, L = ⟨f, sz, reportUnitLabel sz⟩ :: M) ∧
       (1024 * 1024 ≤ sz → reportUnitLabel sz = "GiB".toList) ∧
       (1024 ≤ sz → sz < 1024 * 1024 → reportUnitLabel sz = "MiB".toList) ∧
       (sz < 1024 → reportUnitLabel sz = "KiB".toList) ∧
       (1024 ≤ sz → sz * unitFactorOf (reportUnitLabel sz) ≠ sz)) := by
  intro before e rest stats f sz s L hv hm hle hc hrun
  have hnot : ¬ before < e.modified := not_lt.mpr hle
  simp only [runLoop, hv, hm, hnot, hc, Bool.not_true, Bool.false_eq_true, if_false,
    if_neg hnot] at hrun
  refine ⟨?_, ?_, ?_, ?_, ?_⟩
  · rcases hr : runLoop before rest ⟨stats.projects + 1, stats.files + f, stats.size_kib + sz⟩
      with ⟨s', L'⟩ | _ | _ <;> rw [hr] at hrun <;> dsimp only at hrun
    · injection hrun with h1 h2
      exact ⟨L', h2.symm⟩
    · exact absurd hrun (by simp)
    · exact absurd hrun (by simp)
  · intro h
    unfold reportUnitLabel
    rw [if_pos h]
  · intro h1 h2
    unfold reportUnitLabel
    rw [if_neg (not_le.mpr h2), if_pos h1]
  · intro h1
    have h2 : ¬ (1024 : ℚ) * 1024 ≤ sz := not_le.mpr (lt_trans h1 (by norm_num))
    unfold reportUnitLabel
    rw [if_neg h2, if_neg (not_le.mpr h1)]
  · intro h1
    have hpos : (0 : ℚ) < sz := lt_of_lt_of_le (by norm_num) h1
    unfold reportUnitLabel unitFactorOf
    by_cases hgg : (1024 : ℚ) * 1024 ≤ sz
    · rw [if_pos hgg, if_neg (by decide), if_neg (by decide), if_pos rfl]
      intro heq
      nlinarith
    · rw [if_neg hgg, if_pos h1, if_neg (by decide), if_pos rfl]
      intro heq
      nlinarith

/-- Witness for C9: the cleaned result of `3.50MiB` is normalized to
3584 KiB; its report line carries the number 3584 with label `MiB`, and
`3584 MiB` does not denote 3584 KiB. -/
theorem report_label_mismatch_witness :
    reportUnitLabel (decVal "3.50".toList * 1024) = "MiB".toList ∧
    decVal "3.50".toList * 1024 * unitFactorOf "MiB".toList ≠
      decVal "3.50".toList * 1024 ∧
    (∃ M, [(⟨12, decVal "3.50".toList * 1024,
          reportUnitLabel (decVal "3.50".toList * 1024)⟩ : ReportLine)] =
        (⟨12, decVal "3.50".toList * 1024,
          reportUnitLabel (decVal "3.50".toList * 1024)⟩ : ReportLine) :: M) := by
  have hsz : decVal "3.50".toList * 1024 = 3584 := by rw [decVal_350]; norm_num
  have h := report_label_mismatch 0 entryA [entryB] CleanupStats.new 12
    (decVal "3.50".toList * 1024) _ _ rfl rfl (by decide) cleanOutcome_entryA
    runLoop_entryAB
  have hlb : (1024 : ℚ) ≤ decVal "3.50".toList * 1024 := by rw [hsz]; norm_num
  have hub : decVal "3.50".toList * 1024 < 1024 * 1024 := by rw [hsz]; norm_num
  have hlab := h.2.2.1 hlb hub
  refine ⟨hlab, ?_, h.1⟩
  have hne := h.2.2.2.2 hlb
  rwa [hlab] at hne

/-- C4: for every completed run, the aggregate project count equals the
number of candidates that yielded a `Cleaned`/`Removed` result, the
aggregate files and size totals equal the sums of those results'
respective fields, and the totals over any prefix of the run never exceed
the final totals (monotonically non-decreasing through the run). -/
theorem stats_aggregation :
    ∀ (before : Int) (entries : List Entry) (s : CleanupStats) (L : List ReportLine),
      runLoop before entries CleanupStats.new = .done s L →
      (s.projects = (entries.filterMap (cleanedData before)).length ∧
       s.files = ((entries.filterMap (cleanedData before)).map Prod.fst).sum ∧
       s.size_kib = ((entries.filterMap (cleanedData before)).map Prod.snd).sum) ∧
      (∀ (es1 es2 : List Entry) (s1 : CleanupStats) (L1 : List ReportLine),
        entries = es1 ++ es2 →
        runLoop before es1 CleanupStats.new = .done s1 L1 →
        s1.projects ≤ s.projects ∧ s1.files ≤ s.files ∧ s1.size_kib ≤ s.size_kib) := by
  intro before entries s L h
  obtain ⟨h1, h2, h3⟩ := runLoop_done_stats before entries CleanupStats.new s L h
  constructor
  · refine ⟨?_, ?_, ?_⟩
    · rw [h1]; simp [CleanupStats.new]
    · rw [h2]; simp [CleanupStats.new]
    · rw [h3]; simp [CleanupStats.new]
  · intro es1 es2 s1 L1 hsplit hrun1
    obtain ⟨g1, g2, g3⟩ := runLoop_done_stats before es1 CleanupStats.new s1 L1 hrun1
    subst hsplit
    rw [List.filterMap_append] at h1 h2 h3
    refine ⟨?_, ?_, ?_⟩
    · rw [h1, g1, List.length_append]; simp [CleanupStats.new]
    · rw [h2, g2, List.map_append, List.sum_append]; simp [CleanupStats.new]
    · rw [h3, g3, List.map_append, List.sum_append]
      have hnn := cleanedList_sum_nonneg before es2
      simp only [CleanupStats.new]
      linarith

/-- Witness for C4 on a two-entry run (the spec's worked scenario): the
eligible project contributes 12 files and 3584 KiB; the invalid candidate
contributes nothing; exactly one candidate yields a cleaned result. -/
theorem stats_aggregation_witness :
    (0 + 1 : Nat) = ([entryA, entryB].filterMap (cleanedData 0)).length ∧
    (0 + 12 : Nat) = (([entryA, entryB].filterMap (cleanedData 0)).map Prod.fst).sum ∧
    (0 + decVal "3.50".toList * 1024 : ℚ) =
      (([entryA, entryB].filterMap (cleanedData 0)).map Prod.snd).sum ∧
    ([entryA, entryB].filterMap (cleanedData 0)).length = 1 := by
  have h := (stats_aggregation 0 [entryA, entryB] _ _ runLoop_entryAB).1
  exact ⟨h.1, h.2.1, h.2.2, by decide⟩

/-- Witness for C8 (amended): a captured unit `QiB` panics at the
`unreachable!` arm; a captured unit `KiB` does not. -/
theorem unit_token_amended_witness :
    cleanOutcome ⟨true, true, true, 0, true, true,
        "Removed 7 files, 2.00QiB total".toList⟩ = .panicked ∧
    cleanOutcome ⟨true, true, true, 0, true, true,
        "Removed 7 files, 2.00KiB total".toList⟩ ≠ .panicked := by
  constructor
  · exact (unit_token_amended ⟨true, true, true, 0, true, true,
        "Removed 7 files, 2.00QiB total".toList⟩ "7".toList "2.00".toList "QiB".toList 7
        rfl rfl (by decide) (by decide) (by decide)).1 (by decide) (by decide) (by decide)
  · exact (unit_token_amended ⟨true, true, true, 0, true, true,
        "Removed 7 files, 2.00KiB total".toList⟩ "7".toList "2.00".toList "KiB".toList 7
        rfl rfl (by decide) (by decide) (by decide)).2 (Or.inl rfl)
